import Mathlib

/-!
Verification of the PIXI caliper-measurement dashboard (`src/main.py`).

Tables are modelled as lists of rows, and a row as an association list from
column names to values, mirroring the string-keyed pandas DataFrames of the
source.  Numeric cells are rationals (the source's floats), date cells are
integer day counts (the source's day-resolution timestamps), and missing or
NaN/NaT cells are `Val.null`.
-/

/-- A cell value of a dataframe: a float (as `ℚ`), an integer day count
(`.dt.days` results), a string, a parsed date (days since the civil epoch),
or a null (NaN/NaT). -/
inductive Val where
  | num : ℚ → Val
  | int : ℤ → Val
  | str : String → Val
  | date : ℤ → Val
  | null : Val
deriving DecidableEq, Repr

/-- A dataframe row: an association list from column names to cell values. -/
abbrev Row := List (String × Val)

/-- A dataframe: a list of rows. -/
abbrev Table := List Row

/-- Look up a column's value in a row (first occurrence). -/
def getVal (r : Row) (k : String) : Option Val := List.lookup k r

/-- Look up a numeric cell. -/
def getNum (r : Row) (k : String) : Option ℚ :=
  match getVal r k with
  | some (Val.num q) => some q
  | _ => none

/-- Look up a string cell. -/
def getStr (r : Row) (k : String) : Option String :=
  match getVal r k with
  | some (Val.str s) => some s
  | _ => none

/-- Look up a date cell. -/
def getDate (r : Row) (k : String) : Option ℤ :=
  match getVal r k with
  | some (Val.date z) => some z
  | _ => none

/-- Whether a row has a column of the given name. -/
def hasCol (r : Row) (k : String) : Bool := r.any (fun p => p.1 == k)

/-- `df[k] = v` for one row: overwrite the column in place when it exists
(keeping its position, as pandas does), otherwise append it at the end. -/
def setCol (k : String) (v : Val) (r : Row) : Row :=
  if hasCol r k then r.map (fun p => if p.1 == k then (k, v) else p)
  else r ++ [(k, v)]

/-- `df.drop(columns=cols)` for one row. -/
def dropCols (cols : List String) (r : Row) : Row :=
  r.filter (fun p => !(cols.contains p.1))

/-- `df.rename(columns=m)` for one row: keys found in the mapping are
renamed, all others are kept as they are (pandas ignores absent keys). -/
def renameCols (m : List (String × String)) (r : Row) : Row :=
  r.map (fun p => match List.lookup p.1 m with
    | some k => (k, p.2)
    | none => p)

/-! ### Date parsing

`pd.to_datetime` is modelled for the ISO `YYYY-MM-DD` strings the XNAT CSV
export produces; the parsed value is a day count obtained from the standard
days-from-civil-date formula.  Any other shape fails, matching the spec's
"malformed dates fail the whole load". -/

/-- Day count of a civil date relative to 1970-01-01 (Gregorian). -/
def daysFromCivil (y m d : ℤ) : ℤ :=
  let yy := if m ≤ 2 then y - 1 else y
  let era := (if 0 ≤ yy then yy else yy - 399) / 400
  let yoe := yy - era * 400
  let mp := (m + 9) % 12
  let doy := (153 * mp + 2) / 5 + d - 1
  let doe := yoe * 365 + yoe / 4 - yoe / 100 + doy
  era * 146097 + doe - 719468

/-- Split a character list on the dash character. -/
def splitDash : List Char → List (List Char)
  | [] => [[]]
  | c :: cs =>
    let r := splitDash cs
    if c = '-' then [] :: r
    else match r with
      | [] => [[c]]
      | g :: gs => (c :: g) :: gs

/-- Value of a decimal digit character. -/
def digitVal (c : Char) : Option ℕ :=
  if c.isDigit then some (c.toNat - 48) else none

/-- Read a nonempty digit string as a natural number. -/
def digitsToNat (cs : List Char) : Option ℕ :=
  if cs.isEmpty then none
  else cs.foldl (fun acc c => do
    let a ← acc
    let d ← digitVal c
    some (a * 10 + d)) (some 0)

/-- Parse an ISO `YYYY-MM-DD` date string to a day count. -/
def parseDate (s : String) : Option ℤ :=
  match splitDash s.toList with
  | [ys, ms, ds] => do
    let y ← digitsToNat ys
    let m ← digitsToNat ms
    let d ← digitsToNat ds
    if 1 ≤ m ∧ m ≤ 12 ∧ 1 ≤ d ∧ d ≤ 31 then some (daysFromCivil y m d)
    else none
  | _ => none

/-- `df[k] = pd.to_datetime(df[k])` for one row: the string cell is parsed
to a date in place; a missing column or malformed date fails the load. -/
def parseDateCol (k : String) (r : Row) : Option Row :=
  match getStr r k with
  | some s => (parseDate s).map (fun z => setCol k (Val.date z) r)
  | none => none

/-- Sort key for `df.sort_values(by=k)`: the parsed date of column `k`. -/
def dateKeyD (k : String) (r : Row) : ℤ := (getDate r k).getD 0

/-- `df.sort_values(by=k)` on a table of parsed dates. -/
def sortByDateKey (k : String) (t : Table) : Table :=
  List.insertionSort (fun a b => dateKeyD k a ≤ dateKeyD k b) t

/-! ### The transform pipeline (`_load_caliper_measurements`, `_load_pdxs`,
`_load_data` of `src/main.py`) -/

/-- Columns dropped from the raw measurement CSV (main.py line 51). -/
def measDropCols : List String := ["URI", "pixi:calipermeasurementdata/id"]

/-- The measurement column renaming (main.py lines 57-64). -/
def measRenames : List (String × String) :=
  [("pixi:calipermeasurementdata/subject_id", "subjectId"),
   ("pixi:calipermeasurementdata/weight", "weight"),
   ("pixi:calipermeasurementdata/length", "length"),
   ("pixi:calipermeasurementdata/width", "width"),
   ("subject_label", "subject"),
   ("xnat:subjectdata/group", "group")]

/-- Columns dropped from the raw PDX CSV (main.py line 86). -/
def pdxDropCols : List String := ["URI", "pixi:pdxdata/id"]

/-- The PDX column renaming (main.py lines 89-95). -/
def pdxRenames : List (String × String) :=
  [("pixi:pdxdata/sourceid", "pdxId"),
   ("pixi:pdxdata/injectionsite", "injectionSite"),
   ("subject_label", "subject"),
   ("xnat:subjectdata/group", "group"),
   ("date", "injectionDate")]

/-- Line 54: `df['volume'] = 0.5 * df[length] * df[width] * df[width]`,
reading the still-verbose column names (the rename happens later); the new
column is appended at the end.  A missing length or width column is a
KeyError, failing the load. -/
def addVolume (r : Row) : Option Row :=
  match getNum r "pixi:calipermeasurementdata/length",
        getNum r "pixi:calipermeasurementdata/width" with
  | some l, some w => some (r ++ [("volume", Val.num ((1 : ℚ) / 2 * l * w * w))])
  | _, _ => none

/-- `_load_caliper_measurements` (main.py lines 48-72): drop server columns,
compute volume, rename, parse the date column, sort ascending by date. -/
def loadCaliperMeasurements (raw : Table) : Option Table :=
  match (raw.map (dropCols measDropCols)).mapM addVolume with
  | none => none
  | some withVol =>
    match (withVol.map (renameCols measRenames)).mapM (parseDateCol "date") with
    | none => none
    | some parsed => some (sortByDateKey "date" parsed)

/-- `_load_pdxs` (main.py lines 83-103): drop server columns, rename
(`date` becomes `injectionDate`), parse the injection date, sort by it. -/
def loadPdxs (raw : Table) : Option Table :=
  match ((raw.map (dropCols pdxDropCols)).map (renameCols pdxRenames)).mapM
      (parseDateCol "injectionDate") with
  | none => none
  | some parsed => some (sortByDateKey "injectionDate" parsed)

/-- The join key of a row: the value of its `subject` column, if any.
Pandas merge pairs rows with equal key values (equal nulls included). -/
def subjKey (r : Row) : Option Val := getVal r "subject"

/-- The right-table rows whose subject matches a given left row. -/
def matchesOf (m : Row) (right : Table) : Table :=
  right.filter (fun r => decide (subjKey r = subjKey m))

/-- The non-key columns of the right table (read from its first row; an
empty right table contributes no columns). -/
def rightCols (t : Table) : List String :=
  match t with
  | [] => []
  | r :: _ => (r.map Prod.fst).filter (fun k => k != "subject")

/-- `left.merge(right, how='left', left_on='subject', right_on='subject')`
(main.py line 46): each left row is paired with every matching right row
(so a left row with several matches is duplicated); a left row with no
match is kept once, its right-table columns filled with nulls. -/
def mergeLeftOnSubject (left right : Table) : Table :=
  let rcols := rightCols right
  left.flatMap (fun m =>
    let ms := matchesOf m right
    if ms.isEmpty then [m ++ rcols.map (fun c => (c, Val.null))]
    else ms.map (fun r => m ++ r.filter (fun p => p.1 != "subject")))

/-- `_load_data` (main.py lines 41-46): load both tables, then left-join
the PDX table onto the measurements by subject. -/
def loadData (rawMeas rawPdx : Table) : Option Table :=
  match loadCaliperMeasurements rawMeas, loadPdxs rawPdx with
  | some meas, some pdx => some (mergeLeftOnSubject meas pdx)
  | _, _ => none

/-! ### Filtering (`_get_filtered_data`, main.py lines 206-220) -/

/-- The UI filter state: excluded subjects, excluded groups, and the
optional start date (as a day count). -/
structure FilterState where
  excludedSubjects : List String
  excludedGroups : List String
  startDate : Option ℤ
deriving DecidableEq, Repr

/-- `~df[key].isin(excluded)` for one row: drop the row when its value of
the column is in the excluded list; rows without a value are kept (a null
is never `isin` a list of strings). -/
def keepRow (key : String) (excluded : List String) (r : Row) : Bool :=
  match getStr r key with
  | some s => !(excluded.contains s)
  | none => true

/-- Lines 209-210: the subject filter, applied only when the excluded list
is nonempty. -/
def subjectFilterStep (excluded : List String) (t : Table) : Table :=
  if excluded.isEmpty then t else t.filter (keepRow "subject" excluded)

/-- Lines 217-218: the group filter, applied only when the excluded list is
nonempty. -/
def groupFilterStep (excluded : List String) (t : Table) : Table :=
  if excluded.isEmpty then t else t.filter (keepRow "group" excluded)

/-- Minimum of a list of integers. -/
def minD : List ℤ → Option ℤ
  | [] => none
  | x :: xs =>
    match minD xs with
    | none => some x
    | some m => some (min x m)

/-- `df['date'].min()`: the minimum date in the table, nulls skipped. -/
def minDate (t : Table) : Option ℤ := minD (t.filterMap (fun r => getDate r "date"))

/-- The reference date of lines 212-215: the chosen start date when one is
set, otherwise the minimum date of the (subject-filtered) table. -/
def refDateOf (fs : FilterState) (subjFiltered : Table) : Option ℤ :=
  match fs.startDate with
  | some d => some d
  | none => minDate subjFiltered

/-- The value of the derived `days` cell of a row: the row's date minus the
reference date, in whole days; null when either is missing (NaT arithmetic
gives NaN). -/
def daysVal (ref : Option ℤ) (r : Row) : Val :=
  match ref, getDate r "date" with
  | some d, some t => Val.int (t - d)
  | _, _ => Val.null

/-- `df['days'] = (df['date'] - reference).dt.days`: write the `days`
column onto every row. -/
def daysStep (ref : Option ℤ) (t : Table) : Table :=
  t.map (fun r => setCol "days" (daysVal ref r) r)

/-- `_get_filtered_data` (main.py lines 206-220), with its aliasing made
explicit.  `df` starts as the cached working table itself; when the
excluded-subjects list is nonempty the boolean indexing makes a copy, but
when it is empty the `days` assignment of line 213/215 writes through to
the cached table.  The result is the pair (state of the cached working
table after the call, returned filtered view). -/
def getFilteredData (working : Table) (fs : FilterState) : Table × Table :=
  let s := subjectFilterStep fs.excludedSubjects working
  let d := daysStep (refDateOf fs s) s
  (if fs.excludedSubjects.isEmpty then d else working,
   groupFilterStep fs.excludedGroups d)

/-- The integer values of the `days` column of a table, in row order. -/
def daysInts (t : Table) : List ℤ :=
  t.filterMap (fun r => match getVal r "days" with
    | some (Val.int z) => some z
    | _ => none)

/-! ### Startup (`App.__init__`, main.py lines 22-39) -/

/-- The environment variables consulted for a project context. -/
structure XnatEnv where
  itemId : Option String
  xsiType : Option String
deriving DecidableEq, Repr

/-- Python truthiness of an optional string: `None` and the empty string
are falsy. -/
def pyTruthy : Option String → Bool
  | none => false
  | some s => s != ""

/-- Python `a or b` on optional strings. -/
def pyOr (a b : Option String) : Option String := if pyTruthy a then a else b

/-- Line 26: the project id is the constructor argument, or else the
environment item id when the environment type is `xnat:projectData`. -/
def resolveProjectId (arg : Option String) (env : XnatEnv) : Option String :=
  pyOr arg (if env.xsiType == some "xnat:projectData" then env.itemId else none)

/-- The two fatal startup errors of lines 29-35. -/
inductive InitError where
  | noProject : String → InitError
  | connectError : String → InitError
deriving DecidableEq, Repr

/-- The session produced by a successful startup; `sessionInitialized`
records that `_init_session_state` ran. -/
structure AppSession where
  projectId : String
  sessionInitialized : Bool
deriving DecidableEq, Repr

/-- `App.__init__` (lines 22-39) after the host connection: resolve the
project id; a falsy id raises "Must be started from an XNAT project.";
a failing project lookup raises an error naming the project; only on
success does `_init_session_state` run. -/
def appInit (arg : Option String) (env : XnatEnv)
    (projects : String → Option Unit) : Except InitError AppSession :=
  let pid := resolveProjectId arg env
  if pyTruthy pid then
    let p := pid.getD ""
    match projects p with
    | some _ => Except.ok { projectId := p, sessionInitialized := true }
    | none => Except.error (InitError.connectError ("Error connecting to project " ++ p))
  else Except.error (InitError.noProject "Must be started from an XNAT project.")

/-! ### The all-measurements plot (`_plot_all_measurements`, lines 222-244) -/

/-- `px.colors.qualitative.Plotly`: the fixed ten-colour qualitative
palette indexed by group position. -/
def plotlyQualitative : List String :=
  ["#636EFA", "#EF553B", "#00CC96", "#AB63FA", "#FFA15A",
   "#19D3F3", "#FF6692", "#B6E880", "#FF97FF", "#FECB52"]

/-- `Series.unique()`: distinct values in first-occurrence order. -/
def dedupFO (l : List String) : List String :=
  l.foldl (fun acc x => if x ∈ acc then acc else acc ++ [x]) []

/-- The distinct groups of a table, in first-occurrence order. -/
def uniqueGroups (t : Table) : List String :=
  dedupFO (t.filterMap (fun r => getStr r "group"))

/-- The distinct subjects of a table, in first-occurrence order. -/
def uniqueSubjects (t : Table) : List String :=
  dedupFO (t.filterMap (fun r => getStr r "subject"))

/-- A line+marker trace of the all-measurements figure. -/
structure Trace where
  subject : String
  color : String
  xs : List Val
  ys : List Val
deriving DecidableEq, Repr

/-- `df[df['group'] == g]`. -/
def rowsOfGroup (t : Table) (g : String) : Table :=
  t.filter (fun r => getStr r "group" == some g)

/-- `df[df['subject'] == s]`. -/
def rowsOfSubject (t : Table) (s : String) : Table :=
  t.filter (fun r => getStr r "subject" == some s)

/-- The inner loop of lines 231-234: one trace per distinct subject of the
group, with the group's colour, x the days and y the volumes. -/
def tracesForGroup (c : String) (g : String) (t : Table) : List Trace :=
  let gt := rowsOfGroup t g
  (uniqueSubjects gt).map (fun s =>
    let st := rowsOfSubject gt s
    { subject := s, color := c,
      xs := st.map (fun r => (getVal r "days").getD Val.null),
      ys := st.map (fun r => (getVal r "volume").getD Val.null) })

/-- The outer loop of lines 229-234: `for i, group in enumerate(...)` with
`colors[i]`; an index beyond the palette is an IndexError failing the whole
plot. -/
def colorLoop (t : Table) : List String → ℕ → Option (List Trace)
  | [], _ => some []
  | g :: gs, i =>
    match plotlyQualitative[i]? with
    | some c => (colorLoop t gs (i + 1)).map (fun ts => tracesForGroup c g t ++ ts)
    | none => none

/-- `_plot_all_measurements` trace construction on an already-filtered
table: enumerate the distinct groups from index 0. -/
def plotAllMeasurements (t : Table) : Option (List Trace) :=
  colorLoop t (uniqueGroups t) 0

/-! ### Session-state selector lists (lines 74-81 and 105-108) -/

/-- The selector option lists held in the session state. -/
structure SessionSel where
  subjects : List String
  groups : List String
  pdxs : List String
deriving DecidableEq, Repr

/-- Python `list.sort()` on strings: ascending order. -/
def sortStrs (l : List String) : List String :=
  List.insertionSort (fun a b => a ≤ b) l

/-- The string values of one column of a table. -/
def colStrs (t : Table) (k : String) : List String :=
  t.filterMap (fun r => getStr r k)

/-- Lines 74-81: `subjects.clear(); subjects.extend(df['subject'].unique());
subjects.sort()` and the same for groups — each list is rebuilt from the
transformed measurement table, discarding its previous contents. -/
def loadMeasSelectors (prev : SessionSel) (meas : Table) : SessionSel :=
  { prev with
    subjects := sortStrs (dedupFO (colStrs meas "subject")),
    groups := sortStrs (dedupFO (colStrs meas "group")) }

/-- Lines 105-108: the pdx list rebuilt from the PDX table. -/
def loadPdxSelectors (prev : SessionSel) (pdx : Table) : SessionSel :=
  { prev with pdxs := sortStrs (dedupFO (colStrs pdx "pdxId")) }

/-- The selector updates of one `_load_data` call, in order. -/
def loadDataSelectors (prev : SessionSel) (meas pdx : Table) : SessionSel :=
  loadPdxSelectors (loadMeasSelectors prev meas) pdx

/-! ### Well-formed raw measurement rows

The columns the XNAT CSV export returns for the measurement query of
main.py line 49: the requested columns plus the server's `URI` and record
id. -/

/-- One raw measurement CSV row. -/
def rawMeasRow (uri rid dte : String) (wt l w : ℚ) (s g : String) : Row :=
  [("URI", Val.str uri),
   ("pixi:calipermeasurementdata/id", Val.str rid),
   ("date", Val.str dte),
   ("pixi:calipermeasurementdata/weight", Val.num wt),
   ("pixi:calipermeasurementdata/length", Val.num l),
   ("pixi:calipermeasurementdata/width", Val.num w),
   ("subject_label", Val.str s),
   ("xnat:subjectdata/group", Val.str g)]

/-- A row of the expected raw measurement CSV shape. -/
def IsRawMeasRow (r : Row) : Prop :=
  ∃ uri rid dte wt l w s g, r = rawMeasRow uri rid dte wt l w s g

/-- The value of a well-formed raw measurement row after the column drop
and the volume computation of main.py lines 51-54. -/
def volRow (dte : String) (wt l w : ℚ) (s g : String) : Row :=
  [("date", Val.str dte),
   ("pixi:calipermeasurementdata/weight", Val.num wt),
   ("pixi:calipermeasurementdata/length", Val.num l),
   ("pixi:calipermeasurementdata/width", Val.num w),
   ("subject_label", Val.str s),
   ("xnat:subjectdata/group", Val.str g),
   ("volume", Val.num ((1 : ℚ) / 2 * l * w * w))]

/-- The same row after the rename of lines 57-64. -/
def renamedVolRow (dte : String) (wt l w : ℚ) (s g : String) : Row :=
  [("date", Val.str dte), ("weight", Val.num wt), ("length", Val.num l),
   ("width", Val.num w), ("subject", Val.str s), ("group", Val.str g),
   ("volume", Val.num ((1 : ℚ) / 2 * l * w * w))]

/-- The same row after the date parse of line 67. -/
def parsedMeasRow (z : ℤ) (wt l w : ℚ) (s g : String) : Row :=
  [("date", Val.date z), ("weight", Val.num wt), ("length", Val.num l),
   ("width", Val.num w), ("subject", Val.str s), ("group", Val.str g),
   ("volume", Val.num ((1 : ℚ) / 2 * l * w * w))]

/-! ### The spec-ordered pipeline (§4.2 of the spec)

The spec lists the measurement transform as: drop, rename, compute volume,
parse and sort, join.  After the rename only the short names exist, so its
volume step necessarily reads `length` and `width`.  This definition follows
the spec's wording, to be compared with `loadCaliperMeasurements`, which
follows the source (where the volume is computed before the rename, from
the verbose names). -/

/-- The volume step as the spec orders it: reading the short column names,
after the rename. -/
def addVolumeShort (r : Row) : Option Row :=
  match getNum r "length", getNum r "width" with
  | some l, some w => some (r ++ [("volume", Val.num ((1 : ℚ) / 2 * l * w * w))])
  | _, _ => none

/-- The measurement load with its steps in the spec's claimed order:
drop, rename, volume, parse, sort. -/
def loadCaliperMeasurementsSpecOrder (raw : Table) : Option Table :=
  match ((raw.map (dropCols measDropCols)).map (renameCols measRenames)).mapM
      addVolumeShort with
  | none => none
  | some withVol =>
    match withVol.mapM (parseDateCol "date") with
    | none => none
    | some parsed => some (sortByDateKey "date" parsed)

/-- The full pipeline with the measurement steps in the spec's claimed
order, the join last as both the spec and the source have it. -/
def loadDataSpecOrder (rawMeas rawPdx : Table) : Option Table :=
  match loadCaliperMeasurementsSpecOrder rawMeas, loadPdxs rawPdx with
  | some meas, some pdx => some (mergeLeftOnSubject meas pdx)
  | _, _ => none

/-! ## Helper lemmas -/

lemma lookup_append (k : String) (l₁ l₂ : Row) :
    List.lookup k (l₁ ++ l₂) =
      match List.lookup k l₁ with
      | some v => some v
      | none => List.lookup k l₂ := by
  induction l₁ with
  | nil => simp
  | cons p ps ih =>
    obtain ⟨a, v⟩ := p
    by_cases h : k == a
    · simp [List.lookup_cons, h]
    · simp only [Bool.not_eq_true] at h
      simp [List.lookup_cons, h, ih]

lemma lookup_eq_none_of_hasCol_false {r : Row} {k : String} (h : hasCol r k = false) :
    List.lookup k r = none := by
  induction r with
  | nil => rfl
  | cons p ps ih =>
    simp only [hasCol, List.any_cons, Bool.or_eq_false_iff] at h
    have h1 : (k == p.1) = false := by
      rw [beq_eq_false_iff_ne]
      intro hk
      rw [hk] at h
      simp at h
    obtain ⟨a, v⟩ := p
    simp only [List.lookup_cons, h1]
    exact ih (by simpa [hasCol] using h.2)

lemma hasCol_of_lookup {r : Row} {k : String} {v : Val}
    (h : List.lookup k r = some v) : hasCol r k = true := by
  induction r with
  | nil => simp [List.lookup] at h
  | cons p ps ih =>
    obtain ⟨a, w⟩ := p
    by_cases hk : k == a
    · simp [hasCol, List.any_cons]
      left
      have := (beq_iff_eq).mp hk
      simp [this]
    · simp only [Bool.not_eq_true] at hk
      simp only [List.lookup_cons, hk] at h
      simp [hasCol, List.any_cons]
      right
      simpa [hasCol] using ih h

lemma lookup_map_replace_self {k : String} {v : Val} :
    ∀ {r : Row}, hasCol r k = true →
      List.lookup k (r.map (fun p => if p.1 == k then (k, v) else p)) = some v := by
  intro r
  induction r with
  | nil => intro h; simp [hasCol] at h
  | cons p ps ih =>
    intro h
    obtain ⟨a, w⟩ := p
    simp only [List.map_cons]
    by_cases hp : a = k
    · subst hp
      simp [List.lookup_cons]
    · have hcol : hasCol ps k = true := by
        simp only [hasCol, List.any_cons, Bool.or_eq_true] at h
        rcases h with h | h
        · exact absurd (beq_iff_eq.mp h) hp
        · simpa [hasCol] using h
      have h1 : (a == k) = false := beq_eq_false_iff_ne.mpr hp
      have h2 : (k == a) = false := beq_eq_false_iff_ne.mpr (Ne.symm hp)
      rw [if_neg (by simp [h1]), List.lookup_cons, h2]
      exact ih hcol

lemma lookup_map_replace_ne {k : String} {v : Val} {q : String} (hne : q ≠ k) :
    ∀ (r : Row),
      List.lookup q (r.map (fun p => if p.1 == k then (k, v) else p)) =
        List.lookup q r := by
  intro r
  induction r with
  | nil => rfl
  | cons p ps ih =>
    obtain ⟨a, w⟩ := p
    simp only [List.map_cons]
    by_cases hp : a = k
    · subst hp
      have h2 : (q == a) = false := beq_eq_false_iff_ne.mpr hne
      rw [if_pos (by simp), List.lookup_cons, List.lookup_cons, h2]
      exact ih
    · have h1 : (a == k) = false := beq_eq_false_iff_ne.mpr hp
      rw [if_neg (by simp [h1]), List.lookup_cons, List.lookup_cons]
      rcases Bool.eq_false_or_eq_true (q == a) with hqa | hqa <;> rw [hqa] <;>
        first
        | exact ih
        | rfl

lemma getVal_setCol_self (r : Row) (k : String) (v : Val) :
    getVal (setCol k v r) k = some v := by
  unfold getVal setCol
  by_cases h : hasCol r k
  · simp only [h, if_true]
    exact lookup_map_replace_self h
  · simp only [Bool.not_eq_true] at h
    simp only [h, Bool.false_eq_true, if_false]
    rw [lookup_append, lookup_eq_none_of_hasCol_false h]
    simp [List.lookup_cons]

lemma getVal_setCol_ne (r : Row) {k q : String} (v : Val) (hne : q ≠ k) :
    getVal (setCol k v r) q = getVal r q := by
  unfold getVal setCol
  by_cases h : hasCol r k
  · simp only [h, if_true]
    exact lookup_map_replace_ne hne r
  · simp only [Bool.not_eq_true] at h
    simp only [h, Bool.false_eq_true, if_false]
    rw [lookup_append]
    have h2 : (q == k) = false := by rw [beq_eq_false_iff_ne]; exact hne
    cases hl : List.lookup q r with
    | none => simp [List.lookup_cons, h2]
    | some w => simp

lemma setCol_key_pairs {k : String} {v : Val} (r : Row) :
    ∀ p ∈ setCol k v r, p.1 = k → p = (k, v) := by
  unfold setCol
  by_cases h : hasCol r k
  · simp only [h, if_true]
    intro p hp hpk
    rw [List.mem_map] at hp
    obtain ⟨q, _, hq⟩ := hp
    by_cases hqk : q.1 == k
    · simp only [hqk, if_true] at hq
      exact hq.symm
    · simp only [hqk, Bool.false_eq_true, if_false] at hq
      subst hq
      exact absurd (by simp [hpk]) hqk
  · simp only [Bool.not_eq_true] at h
    simp only [h, Bool.false_eq_true, if_false]
    intro p hp hpk
    rw [List.mem_append] at hp
    rcases hp with hp | hp
    · exfalso
      simp only [hasCol, List.any_eq_false] at h
      exact h p hp (by simp [hpk])
    · simpa using hp

lemma setCol_setCol_self (r : Row) (k : String) (v : Val) :
    setCol k v (setCol k v r) = setCol k v r := by
  have h1 : hasCol (setCol k v r) k = true :=
    hasCol_of_lookup (getVal_setCol_self r k v)
  conv_lhs => rw [setCol]
  simp only [h1, if_true]
  have : ∀ p ∈ setCol k v r,
      (fun p : String × Val => if p.1 == k then (k, v) else p) p = p := by
    intro p hp
    by_cases hpk : p.1 = k
    · have := setCol_key_pairs r p hp hpk
      simp [hpk, this]
    · simp [hpk]
  rw [List.map_congr_left this]
  simp

lemma getDate_setCol_ne (r : Row) {k q : String} (v : Val) (hne : q ≠ k) :
    getDate (setCol k v r) q = getDate r q := by
  unfold getDate
  rw [getVal_setCol_ne r v hne]

lemma getNum_setCol_ne (r : Row) {k q : String} (v : Val) (hne : q ≠ k) :
    getNum (setCol k v r) q = getNum r q := by
  unfold getNum
  rw [getVal_setCol_ne r v hne]

lemma getStr_setCol_ne (r : Row) {k q : String} (v : Val) (hne : q ≠ k) :
    getStr (setCol k v r) q = getStr r q := by
  unfold getStr
  rw [getVal_setCol_ne r v hne]

lemma minD_eq_none_iff (l : List ℤ) : minD l = none ↔ l = [] := by
  cases l with
  | nil => simp [minD]
  | cons x xs =>
    simp only [minD]
    cases minD xs <;> simp

lemma minD_mem : ∀ {l : List ℤ} {m : ℤ}, minD l = some m → m ∈ l := by
  intro l
  induction l with
  | nil => intro m h; simp [minD] at h
  | cons x xs ih =>
    intro m h
    simp only [minD] at h
    cases hx : minD xs with
    | none =>
      rw [hx] at h
      simp only [Option.some.injEq] at h
      simp [← h]
    | some mx =>
      rw [hx] at h
      simp only [Option.some.injEq] at h
      rcases min_cases x mx with ⟨heq, _⟩ | ⟨heq, _⟩
      · rw [heq] at h
        simp [← h]
      · rw [heq] at h
        right
        exact h ▸ ih hx

lemma minD_le : ∀ {l : List ℤ} {m : ℤ}, minD l = some m → ∀ x ∈ l, m ≤ x := by
  intro l
  induction l with
  | nil => intro m h; simp [minD] at h
  | cons x xs ih =>
    intro m h y hy
    simp only [minD] at h
    cases hx : minD xs with
    | none =>
      rw [hx] at h
      simp only [Option.some.injEq] at h
      have : xs = [] := (minD_eq_none_iff xs).mp hx
      subst this
      simp only [List.mem_singleton] at hy
      simp [← h, hy]
    | some mx =>
      rw [hx] at h
      simp only [Option.some.injEq] at h
      rcases List.mem_cons.mp hy with rfl | hy2
      · rw [← h]
        exact min_le_left _ _
      · calc m = min x mx := h.symm
          _ ≤ mx := min_le_right _ _
          _ ≤ y := ih hx y hy2

lemma mem_foldl_dedup (l : List String) :
    ∀ (acc : List String) (x : String),
      x ∈ l.foldl (fun a y => if y ∈ a then a else a ++ [y]) acc ↔ x ∈ acc ∨ x ∈ l := by
  induction l with
  | nil => intro acc x; simp
  | cons y ys ih =>
    intro acc x
    simp only [List.foldl_cons]
    rw [ih]
    by_cases hy : y ∈ acc
    · simp only [hy, if_true, List.mem_cons]
      constructor
      · rintro (h | h)
        · exact Or.inl h
        · exact Or.inr (Or.inr h)
      · rintro (h | rfl | h)
        · exact Or.inl h
        · exact Or.inl hy
        · exact Or.inr h
    · simp only [hy, if_false, List.mem_append, List.mem_singleton, List.mem_cons]
      tauto

lemma nodup_foldl_dedup (l : List String) :
    ∀ (acc : List String), acc.Nodup →
      (l.foldl (fun a y => if y ∈ a then a else a ++ [y]) acc).Nodup := by
  induction l with
  | nil => intro acc h; simpa using h
  | cons y ys ih =>
    intro acc h
    simp only [List.foldl_cons]
    apply ih
    by_cases hy : y ∈ acc
    · simpa [hy] using h
    · simp only [hy, if_false]
      rw [List.nodup_append]
      refine ⟨h, List.nodup_singleton y, ?_⟩
      intro a ha hb
      rw [List.mem_singleton] at hb
      subst hb
      exact hy ha

lemma mem_dedupFO {l : List String} {x : String} : x ∈ dedupFO l ↔ x ∈ l := by
  unfold dedupFO
  rw [mem_foldl_dedup]
  simp

lemma nodup_dedupFO (l : List String) : (dedupFO l).Nodup := by
  unfold dedupFO
  exact nodup_foldl_dedup l [] List.nodup_nil

lemma mapM_option_mem {α β : Type} (f : α → Option β) :
    ∀ {xs : List α} {ys : List β}, xs.mapM f = some ys →
      ∀ y ∈ ys, ∃ x ∈ xs, f x = some y := by
  intro xs
  induction xs with
  | nil =>
    intro ys h y hy
    simp only [List.mapM_nil, Option.pure_def, Option.some.injEq] at h
    subst h
    simp at hy
  | cons a as ih =>
    intro ys h y hy
    rw [List.mapM_cons] at h
    simp only [Option.bind_eq_bind, Option.bind_eq_some, Option.pure_def,
      Option.some.injEq] at h
    obtain ⟨b, hb, bs, hbs, hcons⟩ := h
    subst hcons
    rcases List.mem_cons.mp hy with rfl | hy2
    · exact ⟨a, List.mem_cons_self a as, hb⟩
    · obtain ⟨x, hx, hfx⟩ := ih hbs y hy2
      exact ⟨x, List.mem_cons_of_mem a hx, hfx⟩

/-! ## Claim C8: startup error handling -/

/-- Claim C8: startup fails fatally when no project context is resolvable
(no truthy project id from argument or environment), and a connection
failure to the named project raises an error whose message names that
project; no session is initialized in either case. -/
theorem startup_failure_modes (arg : Option String) (env : XnatEnv)
    (projects : String → Option Unit) :
    (pyTruthy (resolveProjectId arg env) = false →
      appInit arg env projects =
        Except.error (InitError.noProject "Must be started from an XNAT project.")) ∧
    (∀ pid, resolveProjectId arg env = some pid → pid ≠ "" → projects pid = none →
      appInit arg env projects =
        Except.error (InitError.connectError ("Error connecting to project " ++ pid)) ∧
      ∃ pre post, "Error connecting to project " ++ pid = pre ++ (pid ++ post)) ∧
    (∀ s, (pyTruthy (resolveProjectId arg env) = false ∨
        (∃ pid, resolveProjectId arg env = some pid ∧ projects pid = none)) →
      appInit arg env projects ≠ Except.ok s) := by
  refine ⟨?_, ?_, ?_⟩
  · intro h
    simp [appInit, h]
  · intro pid hpid hne hproj
    constructor
    · simp [appInit, hpid, pyTruthy, hne, hproj]
    · exact ⟨"Error connecting to project ", "", by simp⟩
  · intro s hcase heq
    rcases hcase with h | ⟨pid, hpid, hproj⟩
    · simp [appInit, h] at heq
    · by_cases hpe : pid = ""
      · simp [appInit, hpid, pyTruthy, hpe] at heq
      · simp [appInit, hpid, pyTruthy, hpe, hproj] at heq

/-- Witness for C8: concrete startup attempts hit both failure modes. -/
theorem startup_failure_modes_witness :
    appInit none ⟨some "P1", some "xnat:subjectData"⟩ (fun _ => none) =
      Except.error (InitError.noProject "Must be started from an XNAT project.") ∧
    appInit (some "P2") ⟨none, none⟩ (fun _ => none) =
      Except.error (InitError.connectError ("Error connecting to project " ++ "P2")) := by
  constructor
  · exact (startup_failure_modes none ⟨some "P1", some "xnat:subjectData"⟩
      (fun _ => none)).1 (by decide)
  · exact ((startup_failure_modes (some "P2") ⟨none, none⟩
      (fun _ => none)).2.1 "P2" (by decide) (by decide) rfl).1

/-! ## Claim C9: the ten-colour palette bound -/

lemma colorLoop_isSome (t : Table) :
    ∀ (gs : List String) (i : ℕ), i + gs.length ≤ plotlyQualitative.length →
      ∃ ts, colorLoop t gs i = some ts := by
  intro gs
  induction gs with
  | nil => intro i _; exact ⟨[], rfl⟩
  | cons g gs ih =>
    intro i h
    rw [List.length_cons] at h
    cases hc : plotlyQualitative[i]? with
    | none =>
      rw [List.getElem?_eq_none_iff] at hc
      omega
    | some c =>
      obtain ⟨ts, hts⟩ := ih (i + 1) (by omega)
      exact ⟨tracesForGroup c g t ++ ts, by simp [colorLoop, hc, hts]⟩

lemma colorLoop_eq_none (t : Table) :
    ∀ (gs : List String) (i : ℕ), i ≤ plotlyQualitative.length →
      plotlyQualitative.length < i + gs.length → colorLoop t gs i = none := by
  intro gs
  induction gs with
  | nil =>
    intro i h1 h2
    rw [List.length_nil] at h2
    omega
  | cons g gs ih =>
    intro i h1 h2
    rw [List.length_cons] at h2
    by_cases hi : i < plotlyQualitative.length
    · cases hc : plotlyQualitative[i]? with
      | none =>
        rw [List.getElem?_eq_none_iff] at hc
        omega
      | some c =>
        have hrec := ih (i + 1) (by omega) (by omega)
        simp [colorLoop, hc, hrec]
    · have hc : plotlyQualitative[i]? = none := List.getElem?_eq_none_iff.mpr (by omega)
      simp [colorLoop, hc]

/-- Claim C9: the per-group colour is a positional lookup into the fixed
ten-element qualitative palette, so a filtered view with more than ten
distinct groups makes the all-measurements plot fail with an index error,
while ten or fewer groups always succeed. -/
theorem plot_palette_bound (t : Table) :
    plotlyQualitative.length = 10 ∧
    (10 < (uniqueGroups t).length → plotAllMeasurements t = none) ∧
    ((uniqueGroups t).length ≤ 10 → ∃ ts, plotAllMeasurements t = some ts) := by
  have hl : plotlyQualitative.length = 10 := rfl
  refine ⟨hl, ?_, ?_⟩
  · intro h
    unfold plotAllMeasurements
    exact colorLoop_eq_none t (uniqueGroups t) 0 (by omega) (by rw [hl]; omega)
  · intro h
    unfold plotAllMeasurements
    exact colorLoop_isSome t (uniqueGroups t) 0 (by rw [hl]; omega)

/-- Witness for C9: a table with eleven distinct groups fails to plot, one
with two distinct groups plots. -/
theorem plot_palette_bound_witness :
    plotAllMeasurements
        [[("group", Val.str "g01"), ("subject", Val.str "s")],
         [("group", Val.str "g02"), ("subject", Val.str "s")],
         [("group", Val.str "g03"), ("subject", Val.str "s")],
         [("group", Val.str "g04"), ("subject", Val.str "s")],
         [("group", Val.str "g05"), ("subject", Val.str "s")],
         [("group", Val.str "g06"), ("subject", Val.str "s")],
         [("group", Val.str "g07"), ("subject", Val.str "s")],
         [("group", Val.str "g08"), ("subject", Val.str "s")],
         [("group", Val.str "g09"), ("subject", Val.str "s")],
         [("group", Val.str "g10"), ("subject", Val.str "s")],
         [("group", Val.str "g11"), ("subject", Val.str "s")]] = none ∧
    ∃ ts, plotAllMeasurements
        [[("group", Val.str "a"), ("subject", Val.str "s")],
         [("group", Val.str "b"), ("subject", Val.str "s")]] = some ts := by
  constructor
  · exact (plot_palette_bound _).2.1 (by decide)
  · exact (plot_palette_bound _).2.2 (by decide)

/-! ## Claim C2: left-join row preservation -/

lemma mergeLeft_cons (m : Row) (ms : List Row) (right : Table) :
    mergeLeftOnSubject (m :: ms) right =
      (if (matchesOf m right).isEmpty then
        [m ++ (rightCols right).map (fun c => (c, Val.null))]
      else (matchesOf m right).map (fun r => m ++ r.filter (fun p => p.1 != "subject"))) ++
      mergeLeftOnSubject ms right := by
  simp [mergeLeftOnSubject]

/-- Counterexample for C2: a measurement subject with two implant records
is duplicated by the left join, so the working table has more rows than
the measurement table. -/
theorem join_rowcount_cex :
    (mergeLeftOnSubject
        [[("subject", Val.str "A"), ("weight", Val.str "w")]]
        [[("subject", Val.str "A"), ("pdxId", Val.str "P1")],
         [("subject", Val.str "A"), ("pdxId", Val.str "P2")]]).length ≠
      ([[("subject", Val.str "A"), ("weight", Val.str "w")]] : Table).length := by
  decide

/-- Claim C2 (amended): the left join keeps every measurement row, and when
every measurement row matches at most one implant record the working table
has exactly the measurement table's row count; a row with no match keeps
its columns with the implant fields null. -/
theorem join_left_preserving (left right : Table)
    (h : ∀ m ∈ left, (matchesOf m right).length ≤ 1) :
    (mergeLeftOnSubject left right).length = left.length ∧
    ∀ m ∈ left, matchesOf m right = [] →
      (m ++ (rightCols right).map (fun c => (c, Val.null))) ∈
        mergeLeftOnSubject left right := by
  induction left with
  | nil => exact ⟨rfl, by simp⟩
  | cons m ms ih =>
    obtain ⟨ihlen, ihmem⟩ := ih (fun x hx => h x (List.mem_cons_of_mem m hx))
    have hbranch : (if (matchesOf m right).isEmpty then
        [m ++ (rightCols right).map (fun c => (c, Val.null))]
      else (matchesOf m right).map
        (fun r => m ++ r.filter (fun p => p.1 != "subject"))).length = 1 := by
      by_cases he : (matchesOf m right).isEmpty
      · simp [he]
      · rw [if_neg he, List.length_map]
        have h1 : (matchesOf m right).length ≤ 1 := h m (List.mem_cons_self m ms)
        have h2 : (matchesOf m right) ≠ [] := by
          intro hnil
          exact he (by simp [hnil])
        have h3 : (matchesOf m right).length ≠ 0 := by
          intro h0
          exact h2 (List.length_eq_zero.mp h0)
        omega
    constructor
    · rw [mergeLeft_cons, List.length_append, hbranch, ihlen, List.length_cons]
      omega
    · intro x hx hmm
      rw [mergeLeft_cons, List.mem_append]
      rcases List.mem_cons.mp hx with rfl | hx2
      · left
        simp [hmm]
      · right
        exact ihmem x hx2 hmm

/-- Witness for C2 (amended): a two-row measurement table against a
one-row implant table keeps both rows, the unmatched one padded with
nulls. -/
theorem join_left_preserving_witness :
    (mergeLeftOnSubject
        [[("subject", Val.str "A"), ("weight", Val.str "w")],
         [("subject", Val.str "B"), ("weight", Val.str "v")]]
        [[("subject", Val.str "A"), ("pdxId", Val.str "P1")]]).length =
      ([[("subject", Val.str "A"), ("weight", Val.str "w")],
        [("subject", Val.str "B"), ("weight", Val.str "v")]] : Table).length ∧
    ([("subject", Val.str "B"), ("weight", Val.str "v")] ++
        (rightCols [[("subject", Val.str "A"), ("pdxId", Val.str "P1")]]).map
          (fun c => (c, Val.null))) ∈
      mergeLeftOnSubject
        [[("subject", Val.str "A"), ("weight", Val.str "w")],
         [("subject", Val.str "B"), ("weight", Val.str "v")]]
        [[("subject", Val.str "A"), ("pdxId", Val.str "P1")]] := by
  have h := join_left_preserving
    [[("subject", Val.str "A"), ("weight", Val.str "w")],
     [("subject", Val.str "B"), ("weight", Val.str "v")]]
    [[("subject", Val.str "A"), ("pdxId", Val.str "P1")]] (by decide)
  exact ⟨h.1, h.2 _ (by decide) (by decide)⟩

/-! ## Claim C3: the filter call and the cached working table -/

/-- Counterexample for C3: with no excluded subjects, computing the
filtered view writes a `days` column in place onto the cached working
table, so the table does not hold exactly the columns it held before. -/
theorem filter_mutates_working_cex :
    (getFilteredData [[("subject", Val.str "A"), ("date", Val.date 5)]]
        { excludedSubjects := [], excludedGroups := [], startDate := some 3 }).1 ≠
      [[("subject", Val.str "A"), ("date", Val.date 5)]] := by
  decide

/-- Claim C3 (amended): computing the filtered view leaves the cached
working table's rows and its columns other than `days` unchanged; when the
excluded-subjects set is nonempty the table is fully unchanged, but when
it is empty the `days` column is written in place onto the cached table. -/
theorem filter_frame_effect (w : Table) (fs : FilterState) :
    (fs.excludedSubjects ≠ [] → (getFilteredData w fs).1 = w) ∧
    (fs.excludedSubjects = [] →
      (getFilteredData w fs).1 = daysStep (refDateOf fs w) w ∧
      (getFilteredData w fs).1.length = w.length ∧
      ∀ (i : ℕ) (q : String), q ≠ "days" →
        ((getFilteredData w fs).1.get? i).map (fun r => getVal r q) =
          (w.get? i).map (fun r => getVal r q)) := by
  constructor
  · intro hne
    have he : fs.excludedSubjects.isEmpty = false := by
      rw [List.isEmpty_eq_false_iff_exists_mem]
      cases hc : fs.excludedSubjects with
      | nil => exact absurd hc hne
      | cons a as => exact ⟨a, by simp⟩
    simp [getFilteredData, he]
  · intro hemp
    have heq : (getFilteredData w fs).1 = daysStep (refDateOf fs w) w := by
      simp [getFilteredData, hemp, subjectFilterStep]
    refine ⟨heq, ?_, ?_⟩
    · rw [heq]
      simp [daysStep]
    · intro i q hq
      rw [heq]
      unfold daysStep
      rw [List.get?_map]
      cases hw : w.get? i with
      | none => simp
      | some r =>
        simp only [Option.map_some']
        rw [getVal_setCol_ne r _ hq]

/-- Witness for C3 (amended): a nonempty exclusion leaves the concrete
working table unchanged; an empty exclusion rewrites it to the days-annotated
table. -/
theorem filter_frame_effect_witness :
    (getFilteredData [[("subject", Val.str "A"), ("date", Val.date 5)]]
        { excludedSubjects := ["Z"], excludedGroups := [], startDate := some 3 }).1 =
      [[("subject", Val.str "A"), ("date", Val.date 5)]] ∧
    (getFilteredData [[("subject", Val.str "A"), ("date", Val.date 5)]]
        { excludedSubjects := [], excludedGroups := [], startDate := some 3 }).1 =
      daysStep (refDateOf
          { excludedSubjects := [], excludedGroups := [], startDate := some 3 }
          [[("subject", Val.str "A"), ("date", Val.date 5)]])
        [[("subject", Val.str "A"), ("date", Val.date 5)]] := by
  constructor
  · exact (filter_frame_effect
      [[("subject", Val.str "A"), ("date", Val.date 5)]]
      { excludedSubjects := ["Z"], excludedGroups := [], startDate := some 3 }).1
      (by decide)
  · exact ((filter_frame_effect
      [[("subject", Val.str "A"), ("date", Val.date 5)]]
      { excludedSubjects := [], excludedGroups := [], startDate := some 3 }).2 rfl).1

/-! ## Claim C5: filter order and exactness -/

lemma keepRow_iff (key : String) (excl : List String) (r : Row) :
    keepRow key excl r = true ↔ ∀ s, getStr r key = some s → s ∉ excl := by
  unfold keepRow
  cases hs : getStr r key with
  | none => simp
  | some s =>
    constructor
    · intro h u hu
      rw [Option.some.injEq] at hu
      rw [← hu]
      simpa using h
    · intro h
      simpa using h s rfl

/-- Claim C5: the filtered view is computed by, in order, (a) the
excluded-subjects filter, (b) the `days` computation relative to the
reference date, (c) the excluded-groups filter; the subject filter removes
exactly the rows whose subject is excluded, and the group filter exactly
the rows whose group is excluded. -/
theorem filter_order_exactness (w : Table) (fs : FilterState) :
    ((getFilteredData w fs).2 =
      groupFilterStep fs.excludedGroups
        (daysStep (refDateOf fs (subjectFilterStep fs.excludedSubjects w))
          (subjectFilterStep fs.excludedSubjects w))) ∧
    (∀ r, r ∈ subjectFilterStep fs.excludedSubjects w ↔
      (r ∈ w ∧ ∀ s, getStr r "subject" = some s → s ∉ fs.excludedSubjects)) ∧
    (∀ (t : Table) (r : Row), r ∈ groupFilterStep fs.excludedGroups t ↔
      (r ∈ t ∧ ∀ g, getStr r "group" = some g → g ∉ fs.excludedGroups)) := by
  refine ⟨rfl, ?_, ?_⟩
  · intro r
    unfold subjectFilterStep
    by_cases he : fs.excludedSubjects.isEmpty
    · have : fs.excludedSubjects = [] := List.isEmpty_iff.mp he
      simp [he, this]
    · rw [if_neg he, List.mem_filter, keepRow_iff]
  · intro t r
    unfold groupFilterStep
    by_cases he : fs.excludedGroups.isEmpty
    · have : fs.excludedGroups = [] := List.isEmpty_iff.mp he
      simp [he, this]
    · rw [if_neg he, List.mem_filter, keepRow_iff]

/-! ## Claim C10: the session-state selector lists -/

lemma sortStrs_sorted (l : List String) : (sortStrs l).Sorted (· ≤ ·) :=
  List.sorted_insertionSort (· ≤ ·) l

lemma sortStrs_mem (l : List String) (x : String) : x ∈ sortStrs l ↔ x ∈ l :=
  (List.perm_insertionSort (· ≤ ·) l).mem_iff

lemma sortStrs_nodup {l : List String} (h : l.Nodup) : (sortStrs l).Nodup :=
  ((List.perm_insertionSort (· ≤ ·) l).nodup_iff).mpr h

/-- Claim C10: after a data load the selector lists are each exactly the
distinct values of the corresponding column of the loaded table, sorted
ascending, and are rebuilt from scratch rather than accumulated across
loads (the previous session state does not influence the result). -/
theorem selector_lists_rebuilt (prevA prevB : SessionSel) (meas pdx : Table) :
    loadDataSelectors prevA meas pdx = loadDataSelectors prevB meas pdx ∧
    ((loadDataSelectors prevA meas pdx).subjects.Sorted (· ≤ ·) ∧
      (loadDataSelectors prevA meas pdx).subjects.Nodup ∧
      ∀ x, x ∈ (loadDataSelectors prevA meas pdx).subjects ↔
        x ∈ colStrs meas "subject") ∧
    ((loadDataSelectors prevA meas pdx).groups.Sorted (· ≤ ·) ∧
      (loadDataSelectors prevA meas pdx).groups.Nodup ∧
      ∀ x, x ∈ (loadDataSelectors prevA meas pdx).groups ↔
        x ∈ colStrs meas "group") ∧
    ((loadDataSelectors prevA meas pdx).pdxs.Sorted (· ≤ ·) ∧
      (loadDataSelectors prevA meas pdx).pdxs.Nodup ∧
      ∀ x, x ∈ (loadDataSelectors prevA meas pdx).pdxs ↔
        x ∈ colStrs pdx "pdxId") := by
  refine ⟨rfl, ⟨?_, ?_, ?_⟩, ⟨?_, ?_, ?_⟩, ⟨?_, ?_, ?_⟩⟩
  · exact sortStrs_sorted _
  · exact sortStrs_nodup (nodup_dedupFO _)
  · intro x
    show x ∈ sortStrs (dedupFO (colStrs meas "subject")) ↔ _
    rw [sortStrs_mem, mem_dedupFO]
  · exact sortStrs_sorted _
  · exact sortStrs_nodup (nodup_dedupFO _)
  · intro x
    show x ∈ sortStrs (dedupFO (colStrs meas "group")) ↔ _
    rw [sortStrs_mem, mem_dedupFO]
  · exact sortStrs_sorted _
  · exact sortStrs_nodup (nodup_dedupFO _)
  · intro x
    show x ∈ sortStrs (dedupFO (colStrs pdx "pdxId")) ↔ _
    rw [sortStrs_mem, mem_dedupFO]

/-! ## Claim C7: idempotence of filtering -/

lemma getFilteredData_empty_subjects (w : Table) (fs : FilterState)
    (he : fs.excludedSubjects = []) :
    getFilteredData w fs =
      (daysStep (refDateOf fs w) w,
       groupFilterStep fs.excludedGroups (daysStep (refDateOf fs w) w)) := by
  unfold getFilteredData
  rw [he]
  simp [subjectFilterStep]

lemma minDate_daysStep (w : Table) (ref : Option ℤ) :
    minDate (daysStep ref w) = minDate w := by
  unfold minDate daysStep
  rw [List.filterMap_map]
  congr 1
  apply List.filterMap_congr
  intro r _
  exact getDate_setCol_ne r _ (by decide)

lemma daysStep_daysStep (w : Table) (ref : Option ℤ) :
    daysStep ref (daysStep ref w) = daysStep ref w := by
  unfold daysStep
  rw [List.map_map]
  apply List.map_congr_left
  intro r _
  have h1 : daysVal ref (setCol "days" (daysVal ref r) r) = daysVal ref r := by
    unfold daysVal
    rw [getDate_setCol_ne r _ (by decide)]
  show setCol "days" (daysVal ref (setCol "days" (daysVal ref r) r))
      (setCol "days" (daysVal ref r) r) = setCol "days" (daysVal ref r) r
  rw [h1, setCol_setCol_self]

/-- Claim C7: recomputing the filtered view from the same filter state a
second time (after the first call, which may have written the `days` column
onto the cached table) yields the identical view and leaves the cached
table as the first call left it. -/
theorem filtering_idempotent (w : Table) (fs : FilterState) :
    getFilteredData (getFilteredData w fs).1 fs = getFilteredData w fs := by
  by_cases he : fs.excludedSubjects.isEmpty
  · have hes : fs.excludedSubjects = [] := List.isEmpty_iff.mp he
    have href : refDateOf fs (daysStep (refDateOf fs w) w) = refDateOf fs w := by
      unfold refDateOf
      cases fs.startDate with
      | some d => rfl
      | none => exact minDate_daysStep w _
    rw [getFilteredData_empty_subjects w fs hes]
    rw [getFilteredData_empty_subjects (daysStep (refDateOf fs w) w) fs hes]
    rw [href, daysStep_daysStep]
  · have h1 : (getFilteredData w fs).1 = w := by
      simp [getFilteredData, he]
    rw [h1]

/-! ## Claim C4: the days column -/

lemma mem_daysStep {t : Table} {ref : Option ℤ} {r : Row} :
    r ∈ daysStep ref t ↔ ∃ r0 ∈ t, r = setCol "days" (daysVal ref r0) r0 := by
  unfold daysStep
  rw [List.mem_map]
  constructor
  · rintro ⟨r0, h0, rfl⟩
    exact ⟨r0, h0, rfl⟩
  · rintro ⟨r0, h0, rfl⟩
    exact ⟨r0, h0, rfl⟩

lemma mem_of_mem_groupFilterStep {excl : List String} {t : Table} {r : Row}
    (h : r ∈ groupFilterStep excl t) : r ∈ t := by
  unfold groupFilterStep at h
  by_cases he : excl.isEmpty
  · rwa [if_pos he] at h
  · rw [if_neg he] at h
    exact (List.mem_filter.mp h).1

/-- Claim C4: in the filtered view, when a start date D is chosen every row
with date T has `days = T - D` in whole days (an integer that may be
negative); when no start date is chosen, the days values over the
subject-filtered table (each row carrying a date) have minimum zero. -/
theorem days_column_values (w : Table) (fs : FilterState) :
    (∀ D, fs.startDate = some D →
      ∀ r ∈ (getFilteredData w fs).2, ∀ t, getDate r "date" = some t →
        getVal r "days" = some (Val.int (t - D))) ∧
    (fs.startDate = none →
      subjectFilterStep fs.excludedSubjects w ≠ [] →
      (∀ r ∈ subjectFilterStep fs.excludedSubjects w, ∃ t, getDate r "date" = some t) →
      0 ∈ daysInts (daysStep (refDateOf fs (subjectFilterStep fs.excludedSubjects w))
          (subjectFilterStep fs.excludedSubjects w)) ∧
      ∀ z ∈ daysInts (daysStep (refDateOf fs (subjectFilterStep fs.excludedSubjects w))
          (subjectFilterStep fs.excludedSubjects w)), 0 ≤ z) := by
  constructor
  · intro D hD r hr t ht
    have hrd : r ∈ daysStep (refDateOf fs (subjectFilterStep fs.excludedSubjects w))
        (subjectFilterStep fs.excludedSubjects w) := mem_of_mem_groupFilterStep hr
    obtain ⟨r0, _, rfl⟩ := mem_daysStep.mp hrd
    have href : refDateOf fs (subjectFilterStep fs.excludedSubjects w) = some D := by
      unfold refDateOf
      rw [hD]
    rw [href] at ht ⊢
    have ht0 : getDate r0 "date" = some t := by
      rw [← ht]
      exact (getDate_setCol_ne r0 _ (by decide)).symm
    have hdv : daysVal (some D) r0 = Val.int (t - D) := by
      unfold daysVal
      rw [ht0]
    rw [← hdv]
    exact getVal_setCol_self r0 "days" (daysVal (some D) r0)
  · intro hD hne hdates
    have href : refDateOf fs (subjectFilterStep fs.excludedSubjects w) =
        minDate (subjectFilterStep fs.excludedSubjects w) := by
      unfold refDateOf
      rw [hD]
    obtain ⟨m, hm⟩ : ∃ m, minDate (subjectFilterStep fs.excludedSubjects w) = some m := by
      cases hmm : minDate (subjectFilterStep fs.excludedSubjects w) with
      | some m => exact ⟨m, rfl⟩
      | none =>
        exfalso
        unfold minDate at hmm
        rw [minD_eq_none_iff] at hmm
        obtain ⟨r1, hr1⟩ := List.exists_mem_of_ne_nil _ hne
        obtain ⟨t1, ht1⟩ := hdates r1 hr1
        have : t1 ∈ (subjectFilterStep fs.excludedSubjects w).filterMap
            (fun r => getDate r "date") := List.mem_filterMap.mpr ⟨r1, hr1, ht1⟩
        rw [hmm] at this
        simp at this
    have hdays : ∀ r0 ∈ subjectFilterStep fs.excludedSubjects w, ∀ t,
        getDate r0 "date" = some t →
        getVal (setCol "days" (daysVal (some m) r0) r0) "days" =
          some (Val.int (t - m)) := by
      intro r0 _ t ht0
      have hdv : daysVal (some m) r0 = Val.int (t - m) := by
        unfold daysVal
        rw [ht0]
      rw [← hdv]
      exact getVal_setCol_self r0 "days" (daysVal (some m) r0)
    rw [href, hm]
    constructor
    · have hmmem : m ∈ (subjectFilterStep fs.excludedSubjects w).filterMap
          (fun r => getDate r "date") := minD_mem hm
      obtain ⟨r1, hr1, ht1⟩ := List.mem_filterMap.mp hmmem
      unfold daysInts
      apply List.mem_filterMap.mpr
      refine ⟨setCol "days" (daysVal (some m) r1) r1, ?_, ?_⟩
      · exact mem_daysStep.mpr ⟨r1, hr1, rfl⟩
      · rw [hdays r1 hr1 m ht1]
        simp
    · intro z hz
      unfold daysInts at hz
      obtain ⟨rr, hrr, hval⟩ := List.mem_filterMap.mp hz
      obtain ⟨r0, hr0, rfl⟩ := mem_daysStep.mp hrr
      obtain ⟨t0, ht0⟩ := hdates r0 hr0
      rw [hdays r0 hr0 t0 ht0] at hval
      simp only [Option.some.injEq] at hval
      have hle : m ≤ t0 := minD_le hm t0 (List.mem_filterMap.mpr ⟨r0, hr0, ht0⟩)
      omega

/-- Witness for C4: a concrete two-row table; with start date 7 the row
dated 5 gets days `5 - 7 = -2` (negative), and with no start date the days
values have minimum zero. -/
theorem days_column_values_witness :
    getVal [("subject", Val.str "A"), ("date", Val.date 5), ("days", Val.int (-2))]
        "days" = some (Val.int (5 - 7)) ∧
    (0 ∈ daysInts (daysStep (refDateOf
          { excludedSubjects := [], excludedGroups := [], startDate := none }
          (subjectFilterStep [] [[("subject", Val.str "A"), ("date", Val.date 5)],
            [("subject", Val.str "B"), ("date", Val.date 9)]]))
        (subjectFilterStep [] [[("subject", Val.str "A"), ("date", Val.date 5)],
          [("subject", Val.str "B"), ("date", Val.date 9)]])) ∧
      ∀ z ∈ daysInts (daysStep (refDateOf
          { excludedSubjects := [], excludedGroups := [], startDate := none }
          (subjectFilterStep [] [[("subject", Val.str "A"), ("date", Val.date 5)],
            [("subject", Val.str "B"), ("date", Val.date 9)]]))
        (subjectFilterStep [] [[("subject", Val.str "A"), ("date", Val.date 5)],
          [("subject", Val.str "B"), ("date", Val.date 9)]])), 0 ≤ z) := by
  constructor
  · exact (days_column_values
      [[("subject", Val.str "A"), ("date", Val.date 5)],
       [("subject", Val.str "B"), ("date", Val.date 9)]]
      { excludedSubjects := [], excludedGroups := [], startDate := some 7 }).1
      7 rfl
      [("subject", Val.str "A"), ("date", Val.date 5), ("days", Val.int (-2))]
      (by decide) 5 (by decide)
  · exact (days_column_values
      [[("subject", Val.str "A"), ("date", Val.date 5)],
       [("subject", Val.str "B"), ("date", Val.date 9)]]
      { excludedSubjects := [], excludedGroups := [], startDate := none }).2
      rfl (by decide)
      (by
        intro r hr
        simp only [subjectFilterStep, List.isEmpty_nil, if_true, List.mem_cons,
          List.mem_singleton] at hr
        rcases hr with rfl | rfl | hr
        · exact ⟨5, rfl⟩
        · exact ⟨9, rfl⟩
        · simp at hr)

/-! ## Claim C1: the volume column -/

lemma addVolume_rawMeasRow (uri rid dte : String) (wt l w : ℚ) (s g : String) :
    addVolume (dropCols measDropCols (rawMeasRow uri rid dte wt l w s g)) =
      some (volRow dte wt l w s g) := rfl

lemma rename_volRow (dte : String) (wt l w : ℚ) (s g : String) :
    renameCols measRenames (volRow dte wt l w s g) =
      renamedVolRow dte wt l w s g := rfl

lemma parseDateCol_renamedVolRow (dte : String) (wt l w : ℚ) (s g : String)
    (z : ℤ) (hz : parseDate dte = some z) :
    parseDateCol "date" (renamedVolRow dte wt l w s g) =
      some (parsedMeasRow z wt l w s g) := by
  have hstep : parseDateCol "date" (renamedVolRow dte wt l w s g) =
      (parseDate dte).map
        (fun z => setCol "date" (Val.date z) (renamedVolRow dte wt l w s g)) := rfl
  rw [hstep, hz]
  rfl

/-- Claim C1: every row of the transformed measurement table has a volume
column equal to `0.5 * length * width * width`, computed without any input
validation; when length and width are nonnegative the volume is
nonnegative. -/
theorem volume_column_correct (raw out : Table)
    (hwf : ∀ r ∈ raw, IsRawMeasRow r)
    (hload : loadCaliperMeasurements raw = some out) :
    ∀ r ∈ out, ∃ l w,
      getNum r "length" = some l ∧ getNum r "width" = some w ∧
      getNum r "volume" = some ((1 : ℚ) / 2 * l * w * w) ∧
      (0 ≤ l → 0 ≤ w → 0 ≤ (1 : ℚ) / 2 * l * w * w) := by
  intro r hr
  unfold loadCaliperMeasurements at hload
  cases h1 : (raw.map (dropCols measDropCols)).mapM addVolume with
  | none =>
    simp only [h1] at hload
    exact Option.noConfusion hload
  | some withVol =>
    simp only [h1] at hload
    cases h2 : (withVol.map (renameCols measRenames)).mapM (parseDateCol "date") with
    | none =>
      simp only [h2] at hload
      exact Option.noConfusion hload
    | some parsed =>
      simp only [h2, Option.some.injEq] at hload
      subst hload
      have hrp : r ∈ parsed := by
        unfold sortByDateKey at hr
        exact ((List.perm_insertionSort _ parsed).mem_iff).mp hr
      obtain ⟨q, hq, hpq⟩ := mapM_option_mem _ h2 r hrp
      rw [List.mem_map] at hq
      obtain ⟨p, hp, rfl⟩ := hq
      obtain ⟨p0, hp0, hap⟩ := mapM_option_mem _ h1 p hp
      rw [List.mem_map] at hp0
      obtain ⟨r0, hr0, rfl⟩ := hp0
      obtain ⟨uri, rid, dte, wt, l, w, s, g, rfl⟩ := hwf r0 hr0
      rw [addVolume_rawMeasRow] at hap
      simp only [Option.some.injEq] at hap
      subst hap
      rw [rename_volRow] at hpq
      have hstep : parseDateCol "date" (renamedVolRow dte wt l w s g) =
          (parseDate dte).map
            (fun z => setCol "date" (Val.date z) (renamedVolRow dte wt l w s g)) := rfl
      rw [hstep] at hpq
      cases hpd : parseDate dte with
      | none =>
        rw [hpd] at hpq
        exact absurd hpq (by simp)
      | some z =>
        rw [hpd] at hpq
        simp only [Option.map_some', Option.some.injEq] at hpq
        have hrq : r = parsedMeasRow z wt l w s g := by
          rw [← hpq]
          rfl
        subst hrq
        refine ⟨l, w, rfl, rfl, rfl, ?_⟩
        intro hl hw
        have h3 : (0 : ℚ) ≤ 1 / 2 := by norm_num
        exact mul_nonneg (mul_nonneg (mul_nonneg h3 hl) hw) hw

/-- Witness for C1: a concrete one-row load evaluates to a table whose row
has volume `0.5 * 3 * 2 * 2 = 6`, which is nonnegative. -/
theorem volume_column_correct_witness :
    ∃ l w, getNum (parsedMeasRow 19724 20 3 2 "A" "g") "length" = some l ∧
      getNum (parsedMeasRow 19724 20 3 2 "A" "g") "width" = some w ∧
      getNum (parsedMeasRow 19724 20 3 2 "A" "g") "volume" =
        some ((1 : ℚ) / 2 * l * w * w) ∧
      (0 ≤ l → 0 ≤ w → 0 ≤ (1 : ℚ) / 2 * l * w * w) := by
  have h := volume_column_correct [rawMeasRow "u" "1" "2024-01-02" 20 3 2 "A" "g"]
    (sortByDateKey "date" [parsedMeasRow 19724 20 3 2 "A" "g"])
    (by
      intro r hr
      rw [List.mem_singleton] at hr
      subst hr
      exact ⟨"u", "1", "2024-01-02", 20, 3, 2, "A", "g", rfl⟩)
    rfl
  have hmem : parsedMeasRow 19724 20 3 2 "A" "g" ∈
      sortByDateKey "date" [parsedMeasRow 19724 20 3 2 "A" "g"] := by
    rw [show sortByDateKey "date" [parsedMeasRow 19724 20 3 2 "A" "g"] =
      [parsedMeasRow 19724 20 3 2 "A" "g"] from rfl]
    exact List.mem_singleton.mpr rfl
  exact h (parsedMeasRow 19724 20 3 2 "A" "g") hmem

/-! ## Claim C6: pipeline step order -/

/-- Counterexample for C6: the source computes the volume before the rename
and reads the verbose column names, so on a raw row carrying short column
names the source pipeline fails while the claimed rename-first order
succeeds; the two orders are not the same function of the raw table. -/
theorem pipeline_order_cex :
    loadCaliperMeasurementsSpecOrder
        [[("URI", Val.str "u"), ("pixi:calipermeasurementdata/id", Val.str "1"),
          ("date", Val.str "2024-01-02"), ("length", Val.num 1), ("width", Val.num 2),
          ("subject_label", Val.str "s"), ("xnat:subjectdata/group", Val.str "g")]] ≠
      loadCaliperMeasurements
        [[("URI", Val.str "u"), ("pixi:calipermeasurementdata/id", Val.str "1"),
          ("date", Val.str "2024-01-02"), ("length", Val.num 1), ("width", Val.num 2),
          ("subject_label", Val.str "s"), ("xnat:subjectdata/group", Val.str "g")]] := by
  intro h
  have h1 : loadCaliperMeasurements
      [[("URI", Val.str "u"), ("pixi:calipermeasurementdata/id", Val.str "1"),
        ("date", Val.str "2024-01-02"), ("length", Val.num 1), ("width", Val.num 2),
        ("subject_label", Val.str "s"), ("xnat:subjectdata/group", Val.str "g")]] =
      none := rfl
  have h2 : (loadCaliperMeasurementsSpecOrder
      [[("URI", Val.str "u"), ("pixi:calipermeasurementdata/id", Val.str "1"),
        ("date", Val.str "2024-01-02"), ("length", Val.num 1), ("width", Val.num 2),
        ("subject_label", Val.str "s"), ("xnat:subjectdata/group", Val.str "g")]]).isSome
      = true := rfl
  rw [h, h1] at h2
  exact Bool.noConfusion h2

lemma addVolumeShort_renamed_rawMeasRow (uri rid dte : String) (wt l w : ℚ)
    (s g : String) :
    addVolumeShort (renameCols measRenames
        (dropCols measDropCols (rawMeasRow uri rid dte wt l w s g))) =
      some (renamedVolRow dte wt l w s g) := rfl

lemma stage_addVolume_eq (raw : Table) (hwf : ∀ r ∈ raw, IsRawMeasRow r) :
    ∃ L, (raw.map (dropCols measDropCols)).mapM addVolume = some L ∧
      ((raw.map (dropCols measDropCols)).map (renameCols measRenames)).mapM
          addVolumeShort = some (L.map (renameCols measRenames)) := by
  induction raw with
  | nil => exact ⟨[], rfl, rfl⟩
  | cons r0 rs ih =>
    obtain ⟨L, hL, hLR⟩ := ih (fun x hx => hwf x (List.mem_cons_of_mem r0 hx))
    obtain ⟨uri, rid, dte, wt, l, w, s, g, rfl⟩ := hwf r0 (List.mem_cons_self r0 rs)
    refine ⟨volRow dte wt l w s g :: L, ?_, ?_⟩
    · rw [List.map_cons, List.mapM_cons]
      simp only [addVolume_rawMeasRow, hL, Option.bind_eq_bind, Option.some_bind,
        Option.pure_def]
    · rw [List.map_cons, List.map_cons, List.mapM_cons]
      simp only [addVolumeShort_renamed_rawMeasRow, hLR, Option.bind_eq_bind,
        Option.some_bind, Option.pure_def, List.map_cons, rename_volRow]

/-- Claim C6 (amended): the source pipeline performs drop, volume (from the
verbose column names), rename, date parse and sort, then the left join;
the claimed order (rename before volume) gives the same output on every
well-formed raw measurement table, so the two orders agree up to output
parity, but they are not literally the same sequence of steps. -/
theorem pipeline_order_equiv (rawMeas rawPdx : Table)
    (hwf : ∀ r ∈ rawMeas, IsRawMeasRow r) :
    loadCaliperMeasurementsSpecOrder rawMeas = loadCaliperMeasurements rawMeas ∧
    loadDataSpecOrder rawMeas rawPdx = loadData rawMeas rawPdx := by
  obtain ⟨L, hL, hLR⟩ := stage_addVolume_eq rawMeas hwf
  have hmain : loadCaliperMeasurementsSpecOrder rawMeas =
      loadCaliperMeasurements rawMeas := by
    unfold loadCaliperMeasurementsSpecOrder loadCaliperMeasurements
    rw [hL, hLR]
  refine ⟨hmain, ?_⟩
  unfold loadDataSpecOrder loadData
  rw [hmain]

/-- Witness for C6 (amended): on a concrete well-formed raw table the two
orders produce the same output. -/
theorem pipeline_order_equiv_witness :
    loadCaliperMeasurementsSpecOrder [rawMeasRow "u" "1" "2024-01-05" 20 3 2 "A" "g"] =
      loadCaliperMeasurements [rawMeasRow "u" "1" "2024-01-05" 20 3 2 "A" "g"] ∧
    loadDataSpecOrder [rawMeasRow "u" "1" "2024-01-05" 20 3 2 "A" "g"] [] =
      loadData [rawMeasRow "u" "1" "2024-01-05" 20 3 2 "A" "g"] [] :=
  pipeline_order_equiv [rawMeasRow "u" "1" "2024-01-05" 20 3 2 "A" "g"] []
    (by
      intro r hr
      rw [List.mem_singleton] at hr
      subst hr
      exact ⟨"u", "1", "2024-01-05", 20, 3, 2, "A", "g", rfl⟩)

/-- Witness for C5: the order equation instantiated at a concrete table and
filter state. -/
theorem filter_order_exactness_witness :
    (getFilteredData
        [[("subject", Val.str "A"), ("group", Val.str "g"), ("date", Val.date 3)],
         [("subject", Val.str "B"), ("group", Val.str "h"), ("date", Val.date 4)]]
        { excludedSubjects := ["B"], excludedGroups := ["h"], startDate := some 1 }).2 =
      groupFilterStep ["h"]
        (daysStep
          (refDateOf
            { excludedSubjects := ["B"], excludedGroups := ["h"], startDate := some 1 }
            (subjectFilterStep ["B"]
              [[("subject", Val.str "A"), ("group", Val.str "g"), ("date", Val.date 3)],
               [("subject", Val.str "B"), ("group", Val.str "h"), ("date", Val.date 4)]]))
          (subjectFilterStep ["B"]
            [[("subject", Val.str "A"), ("group", Val.str "g"), ("date", Val.date 3)],
             [("subject", Val.str "B"), ("group", Val.str "h"), ("date", Val.date 4)]])) :=
  (filter_order_exactness
    [[("subject", Val.str "A"), ("group", Val.str "g"), ("date", Val.date 3)],
     [("subject", Val.str "B"), ("group", Val.str "h"), ("date", Val.date 4)]]
    { excludedSubjects := ["B"], excludedGroups := ["h"], startDate := some 1 }).1

/-- Witness for C7: idempotence at a concrete table and filter state. -/
theorem filtering_idempotent_witness :
    getFilteredData
        (getFilteredData [[("subject", Val.str "A"), ("date", Val.date 5)]]
          { excludedSubjects := [], excludedGroups := [], startDate := none }).1
        { excludedSubjects := [], excludedGroups := [], startDate := none } =
      getFilteredData [[("subject", Val.str "A"), ("date", Val.date 5)]]
        { excludedSubjects := [], excludedGroups := [], startDate := none } :=
  filtering_idempotent [[("subject", Val.str "A"), ("date", Val.date 5)]]
    { excludedSubjects := [], excludedGroups := [], startDate := none }

/-- Witness for C10: the rebuilt selector lists do not depend on the
previous session state, at concrete tables. -/
theorem selector_lists_rebuilt_witness :
    loadDataSelectors { subjects := ["old"], groups := ["old"], pdxs := ["old"] }
        [[("subject", Val.str "B")], [("subject", Val.str "A")]]
        [[("pdxId", Val.str "P")]] =
      loadDataSelectors { subjects := [], groups := [], pdxs := [] }
        [[("subject", Val.str "B")], [("subject", Val.str "A")]]
        [[("pdxId", Val.str "P")]] :=
  (selector_lists_rebuilt
    { subjects := ["old"], groups := ["old"], pdxs := ["old"] }
    { subjects := [], groups := [], pdxs := [] }
    [[("subject", Val.str "B")], [("subject", Val.str "A")]]
    [[("pdxId", Val.str "P")]]).1
